import Mathlib

/-!
# NHVE (network hardware video encoder) orchestration layer

A shallow embedding of `src/nhve.c`: the session structure, `nhve_init`,
`nhve_multi_init`, `nhve_close` and `nhve_send_frame`.

The two collaborators (the HVE hardware encoder and the MLSP network streamer)
and the allocator are external to the file.  They are embedded as a `World`:
for every external function, the answer it gives to its k-th call.  The
program state threaded through the embedding is the number of calls made so
far to each external function together with the chronological list of calls
(with their arguments).  Quantifying over every `World` covers every
behaviour of the collaborators.

Pointers are natural numbers (addresses); a nullable pointer is an `Option`.
A read through a null pointer, outside an allocation or of a cell that was
never written is undefined behaviour in C and is reported as `fault`.
-/

namespace Nhve

/-! ## Constants and types of the headers -/

/-- Modelled from the spec: `NHVE_OK` of nhve.h, which is not part of the
sources at hand; the success result of the exposed surface. -/
def NHVE_OK : Int := 0

/-- Modelled from the spec: `NHVE_ERROR` of nhve.h, which is not part of the
sources at hand; the distinct-from-success result of the exposed surface. -/
def NHVE_ERROR : Int := -1

/-- Modelled from the spec: `HVE_OK` of hve.h, which is not part of the sources
at hand.  A non-zero failure flag indicates failure (spec section 6, and the
comment above the check of `failed` in `nhve_send_frame`), so success is 0. -/
def HVE_OK : Int := 0

/-- Modelled from the spec: `MLSP_OK` of mlsp.h, which is not part of the
sources at hand; the success result of the network send. -/
def MLSP_OK : Int := 0

/-- Handle of a hardware encoder: a non-null `struct hve *`. -/
structure hve where
  addr : Nat
deriving DecidableEq

/-- Handle of a network streamer: a non-null `struct mlsp *`. -/
structure mlsp where
  addr : Nat
deriving DecidableEq

/-- Modelled from the spec: `struct nhve_net_config` of nhve.h (address, port). -/
structure nhve_net_config where
  ip : Nat
  port : Nat
deriving DecidableEq

/-- Modelled from the spec: `struct mlsp_config` of mlsp.h, filled in by
`nhve_multi_init` as `{ip, port, 0}`. -/
structure mlsp_config where
  ip : Nat
  port : Nat
  timeout_ms : Int
deriving DecidableEq

/-- Modelled from the spec: `struct nhve_hw_config` of nhve.h, the nine fields
`nhve_multi_init` reads (strings are pointers). -/
structure nhve_hw_config where
  width : Int
  height : Int
  framerate : Int
  device : Nat
  encoder : Nat
  pixel_format : Nat
  profile : Int
  max_b_frames : Int
  bit_rate : Int
deriving DecidableEq

/-- Modelled from the spec: `struct hve_config` of hve.h, the nine fields
`nhve_multi_init` fills in, in the order of its initialiser. -/
structure hve_config where
  width : Int
  height : Int
  framerate : Int
  device : Nat
  encoder : Nat
  pixel_format : Nat
  profile : Int
  max_b_frames : Int
  bit_rate : Int
deriving DecidableEq

/-- Modelled from the spec: `struct nhve_frame` of nhve.h: the frame
identifier, the plane pointers and the row strides. -/
structure nhve_frame where
  framenumber : Nat
  data : List Nat
  linesize : List Int
deriving DecidableEq

/-- Modelled from the spec: `struct hve_frame` of hve.h: plane pointers and
row strides. -/
structure hve_frame where
  data : List Nat
  linesize : List Int
deriving DecidableEq

/-- The two fields of libav's `AVPacket` that `nhve_send_frame` reads. -/
structure AVPacket where
  data : Nat
  size : Int
deriving DecidableEq

/-- Modelled from the spec: `struct mlsp_frame` of mlsp.h, the network frame
record `{framenumber, data, size}`. -/
structure mlsp_frame where
  framenumber : Nat
  data : Nat
  size : Int
deriving DecidableEq

/-! ## The session -/

/-- One cell of the array `hardware_encoder`: never written since `malloc`, or
holding a (nullable) encoder pointer. -/
inductive Slot where
  | uninit
  | val (h : Option hve)
deriving DecidableEq

/-- The `struct nhve` of the source.  `hardware_encoder` is `none` for a NULL
pointer and otherwise the cells of the allocated array. -/
structure nhve where
  network_streamer : Option mlsp
  hardware_encoder : Option (List Slot)
  hardware_encoders_size : Int
deriving DecidableEq

/-- The `zero_nhve = {0}` of `nhve_multi_init`. -/
def zero_nhve : nhve := ⟨none, none, 0⟩

/-- The read `n->hardware_encoder[i]`: `none` when the read is undefined (NULL
array, index outside the allocation, cell never written), otherwise the
pointer found. -/
def read_slot (n : nhve) (i : Nat) : Option (Option hve) :=
  match n.hardware_encoder with
  | none => none
  | some arr =>
    match arr[i]? with
    | some (Slot.val h) => some h
    | _ => none

/-! ## The outside world -/

/-- The diagnostics written to stderr, one per `fprintf` of the source. -/
inductive Diag where
  | no_memory_nhve
  | no_memory_encoders
  | net_client_failed
  | encoder_failed (i : Nat)
  | hw_send_failed
  | net_send_failed
  | encode_failed
deriving DecidableEq

/-- A call that leaves the file, with its arguments, or a diagnostic. -/
inductive Event where
  | malloc_nhve
  | malloc_encoders (hw_size : Int)
  | mlsp_init_client (cfg : mlsp_config)
  | hve_init (cfg : hve_config)
  | mlsp_close (m : Option mlsp)
  | hve_close (h : Option hve)
  | free_encoders (nonnull : Bool)
  | free_nhve
  | hve_send_frame (h : Option hve) (frame : Option hve_frame)
  | hve_receive_packet (h : Option hve)
  | mlsp_send (m : Option mlsp) (frame : mlsp_frame)
  | fprintf (d : Diag)
deriving DecidableEq

/-- The answers of the external functions: the first argument is the number of
earlier calls to the same function, the others are the arguments of the call.
`malloc` tells whether the allocation succeeds; `hve_receive_packet` gives the
packet (or NULL) and the value written to the failure flag. -/
structure World where
  malloc : Nat → Bool
  mlsp_init_client : Nat → mlsp_config → Option mlsp
  hve_init : Nat → hve_config → Option hve
  hve_send_frame : Nat → Option hve → Option hve_frame → Int
  hve_receive_packet : Nat → Option hve → Option AVPacket × Int
  mlsp_send : Nat → Option mlsp → mlsp_frame → Int

/-- Calls made so far to each external function, and the chronological list
of all calls. -/
structure State where
  mallocs : Nat
  net_inits : Nat
  hw_inits : Nat
  submits : Nat
  receives : Nat
  sends : Nat
  trace : List Event
deriving DecidableEq

/-- Nothing has been called yet. -/
def State.start : State := ⟨0, 0, 0, 0, 0, 0, []⟩

/-- Append one event to the chronological list. -/
def State.emit (s : State) (e : Event) : State :=
  { s with trace := s.trace ++ [e] }

/-- Outcome of a function of the file: it returns a value, it runs into
undefined behaviour, or the bound on loop iterations given to the embedding
was too small. -/
inductive Result (α : Type) where
  | ret (a : α)
  | fault
  | out_of_fuel
deriving DecidableEq

/-! ## External calls -/

/-- The call `malloc(sizeof(struct nhve))`. -/
def malloc_nhve (w : World) (s : State) : Bool × State :=
  (w.malloc s.mallocs, { s with mallocs := s.mallocs + 1, trace := s.trace ++ [Event.malloc_nhve] })

/-- The call `malloc(sizeof(struct hve*) * hw_size)`.  With a 64-bit `size_t`
the product cannot wrap for a non-negative `int`; when the call succeeds the
array has `hw_size` cells (none for `hw_size <= 0`). -/
def malloc_encoders (w : World) (s : State) (hw_size : Int) : Bool × State :=
  (w.malloc s.mallocs,
    { s with mallocs := s.mallocs + 1, trace := s.trace ++ [Event.malloc_encoders hw_size] })

/-- The call `mlsp_init_client(&mlsp_cfg)`. -/
def mlsp_init_client (w : World) (s : State) (cfg : mlsp_config) : Option mlsp × State :=
  (w.mlsp_init_client s.net_inits cfg,
    { s with net_inits := s.net_inits + 1, trace := s.trace ++ [Event.mlsp_init_client cfg] })

/-- The call `hve_init(&hve_cfg)`. -/
def hve_init (w : World) (s : State) (cfg : hve_config) : Option hve × State :=
  (w.hve_init s.hw_inits cfg,
    { s with hw_inits := s.hw_inits + 1, trace := s.trace ++ [Event.hve_init cfg] })

/-- The call `hve_send_frame(h, frame)`. -/
def hve_send_frame (w : World) (s : State) (h : Option hve) (frame : Option hve_frame) :
    Int × State :=
  (w.hve_send_frame s.submits h frame,
    { s with submits := s.submits + 1, trace := s.trace ++ [Event.hve_send_frame h frame] })

/-- The call `hve_receive_packet(h, &failed)`: the packet and the flag. -/
def hve_receive_packet (w : World) (s : State) (h : Option hve) :
    (Option AVPacket × Int) × State :=
  (w.hve_receive_packet s.receives h,
    { s with receives := s.receives + 1, trace := s.trace ++ [Event.hve_receive_packet h] })

/-- The call `mlsp_send(m, &network_frame)`. -/
def mlsp_send (w : World) (s : State) (m : Option mlsp) (frame : mlsp_frame) : Int × State :=
  (w.mlsp_send s.sends m frame,
    { s with sends := s.sends + 1, trace := s.trace ++ [Event.mlsp_send m frame] })

/-! ## nhve_close -/

/-- The loop `for(i=0; i<n->hardware_encoders_size; ++i) hve_close(n->hardware_encoder[i])`
of `nhve_close`, from index `i` with `k` iterations left. -/
def close_encoders (n : nhve) : Nat → Nat → State → Result Unit × State
  | 0, _, s => (Result.ret (), s)
  | k + 1, i, s =>
    match read_slot n i with
    | none => (Result.fault, s)
    | some h => close_encoders n k (i + 1) (s.emit (Event.hve_close h))

/-- The function `nhve_close`.  The bound of the loop is read once: nothing in
the loop writes `hardware_encoders_size`, and the loop runs
`hardware_encoders_size` times (not at all when it is not positive). -/
def nhve_close (s : State) (n : nhve) : Result Unit × State :=
  let s1 := s.emit (Event.mlsp_close n.network_streamer)
  match close_encoders n n.hardware_encoders_size.toNat 0 s1 with
  | (Result.ret _, s2) =>
    (Result.ret (), (s2.emit (Event.free_encoders n.hardware_encoder.isSome)).emit Event.free_nhve)
  | (Result.fault, s2) => (Result.fault, s2)
  | (Result.out_of_fuel, s2) => (Result.out_of_fuel, s2)

/-- The function `nhve_close_and_return_null`. -/
def nhve_close_and_return_null (s : State) (n : nhve) : Result (Option nhve) × State :=
  match nhve_close s n with
  | (Result.ret _, s1) => (Result.ret none, s1)
  | (Result.fault, s1) => (Result.fault, s1)
  | (Result.out_of_fuel, s1) => (Result.out_of_fuel, s1)

/-! ## nhve_multi_init -/

/-- The initialiser of `hve_cfg` in the second loop of `nhve_multi_init`. -/
def hve_cfg_of (c : nhve_hw_config) : hve_config :=
  ⟨c.width, c.height, c.framerate, c.device, c.encoder, c.pixel_format, c.profile,
    c.max_b_frames, c.bit_rate⟩

/-- The loop `for(i=0; i<hw_size; ++i) n->hardware_encoder[i] = NULL`, from
index `i` with `k` iterations left, on the cells of the array. -/
def null_slots : Nat → Nat → List Slot → List Slot
  | 0, _, arr => arr
  | k + 1, i, arr => null_slots k (i + 1) (arr.set i (Slot.val none))

/-- How the body of `nhve_multi_init` ends: `return n`, one of the three
`return nhve_close_and_return_null(n)` (with the session as it is then), or
the `return NULL` after the first failed `malloc`. -/
inductive InitExit where
  | done (n : nhve)
  | abort (n : nhve)
  | nomem
deriving DecidableEq

/-- The second loop of `nhve_multi_init`, from index `i` with `k` iterations
left.  `hw_config i` is the element `hw_config[i]` of the array of the caller. -/
def init_encoders (w : World) (hw_config : Nat → nhve_hw_config) :
    Nat → Nat → nhve → State → InitExit × State
  | 0, _, n, s => (InitExit.done n, s)
  | k + 1, i, n, s =>
    let hve_cfg := hve_cfg_of (hw_config i)
    let r := hve_init w s hve_cfg
    let n1 : nhve :=
      { n with hardware_encoder := n.hardware_encoder.map (fun arr => arr.set i (Slot.val r.1)) }
    match r.1 with
    | none => (InitExit.abort n1, r.2.emit (Event.fprintf (Diag.encoder_failed i)))
    | some _ => init_encoders w hw_config k (i + 1) n1 r.2

/-- The body of `nhve_multi_init` up to its `return`. -/
def nhve_multi_init_body (w : World) (s : State) (net_config : nhve_net_config)
    (hw_config : Nat → nhve_hw_config) (hw_size : Int) : InitExit × State :=
  let mlsp_cfg : mlsp_config := ⟨net_config.ip, net_config.port, 0⟩
  let a := malloc_nhve w s
  if a.1 = false then
    (InitExit.nomem, a.2.emit (Event.fprintf Diag.no_memory_nhve))
  else
    let n0 := zero_nhve
    let b := malloc_encoders w a.2 hw_size
    if b.1 = false then
      (InitExit.abort n0, b.2.emit (Event.fprintf Diag.no_memory_encoders))
    else
      let n1 : nhve :=
        { n0 with hardware_encoder := some (List.replicate hw_size.toNat Slot.uninit) }
      let c := mlsp_init_client w b.2 mlsp_cfg
      let n2 : nhve := { n1 with network_streamer := c.1 }
      match c.1 with
      | none => (InitExit.abort n2, c.2.emit (Event.fprintf Diag.net_client_failed))
      | some _ =>
        let n3 : nhve := { n2 with hardware_encoders_size := hw_size }
        let n4 : nhve :=
          { n3 with hardware_encoder := n3.hardware_encoder.map (null_slots hw_size.toNat 0) }
        init_encoders w hw_config hw_size.toNat 0 n4 c.2

/-- The function `nhve_multi_init`: its body, then what its `return` does. -/
def nhve_multi_init (w : World) (s : State) (net_config : nhve_net_config)
    (hw_config : Nat → nhve_hw_config) (hw_size : Int) : Result (Option nhve) × State :=
  match nhve_multi_init_body w s net_config hw_config hw_size with
  | (InitExit.done n, s1) => (Result.ret (some n), s1)
  | (InitExit.abort n, s1) => nhve_close_and_return_null s1 n
  | (InitExit.nomem, s1) => (Result.ret none, s1)

/-- The function `nhve_init`: one hardware configuration. -/
def nhve_init (w : World) (s : State) (net_config : nhve_net_config)
    (hw_config : nhve_hw_config) : Result (Option nhve) × State :=
  nhve_multi_init w s net_config (fun _ => hw_config) 1

/-! ## nhve_send_frame -/

/-- How the `while` loop of `nhve_send_frame` ends: the condition became false
(with the value of `failed`), the `return NHVE_ERROR` inside the loop, undefined
behaviour, or the iteration bound of the embedding was reached. -/
inductive DrainExit where
  | finished (failed : Int)
  | returned (rc : Int)
  | fault
  | out_of_fuel
deriving DecidableEq

/-- The `while` loop of `nhve_send_frame`, at most `fuel` evaluations of its
condition. -/
def drain (w : World) (n : nhve) (frame : Option nhve_frame) : Nat → State → DrainExit × State
  | 0, s => (DrainExit.out_of_fuel, s)
  | fuel + 1, s =>
    match read_slot n 0 with
    | none => (DrainExit.fault, s)
    | some h =>
      let r := hve_receive_packet w s h
      match r.1.1 with
      | none => (DrainExit.finished r.1.2, r.2)
      | some encoded_frame =>
        match frame with
        | none => (DrainExit.fault, r.2)
        | some f =>
          let network_frame : mlsp_frame :=
            ⟨f.framenumber, encoded_frame.data, encoded_frame.size⟩
          let t := mlsp_send w r.2 n.network_streamer network_frame
          if t.1 ≠ MLSP_OK then
            (DrainExit.returned NHVE_ERROR, t.2.emit (Event.fprintf Diag.net_send_failed))
          else
            drain w n frame fuel t.2

/-- The function `nhve_send_frame`; `frame = none` is the NULL frame. -/
def nhve_send_frame (w : World) (s : State) (n : nhve) (frame : Option nhve_frame)
    (fuel : Nat) : Result Int × State :=
  let final_video_frame : Option hve_frame := frame.map (fun f => ⟨f.data, f.linesize⟩)
  match read_slot n 0 with
  | none => (Result.fault, s)
  | some h =>
    let r := hve_send_frame w s h final_video_frame
    if r.1 ≠ HVE_OK then
      (Result.ret NHVE_ERROR, r.2.emit (Event.fprintf Diag.hw_send_failed))
    else
      match drain w n frame fuel r.2 with
      | (DrainExit.finished failed, s2) =>
        if failed ≠ HVE_OK then
          (Result.ret NHVE_ERROR, s2.emit (Event.fprintf Diag.encode_failed))
        else
          (Result.ret NHVE_OK, s2)
      | (DrainExit.returned rc, s2) => (Result.ret rc, s2)
      | (DrainExit.fault, s2) => (Result.fault, s2)
      | (DrainExit.out_of_fuel, s2) => (Result.out_of_fuel, s2)

/-! ## Event lists used to state the results -/

/-- The calls made while relaying the given packets in order: for each packet
one `hve_receive_packet` on `h`, then one `mlsp_send` on `m` of the record
`{fn, data, size}` of that packet. -/
def relay_events (h : Option hve) (m : Option mlsp) (fn : Nat) : List AVPacket → List Event
  | [] => []
  | p :: ps =>
    Event.hve_receive_packet h :: Event.mlsp_send m ⟨fn, p.data, p.size⟩ ::
      relay_events h m fn ps

/-- The network frame records sent, in order, among a list of events. -/
def net_sends : List Event → List mlsp_frame
  | [] => []
  | Event.mlsp_send _ fr :: es => fr :: net_sends es
  | _ :: es => net_sends es

/-- The calls `hve_init` of `m` consecutive rounds of the second loop of
`nhve_multi_init`, from index `i`: one per slot, with the configuration built
from `hw_config[i]`, `hw_config[i+1]`, ... -/
def init_events (hw_config : Nat → nhve_hw_config) : Nat → Nat → List Event
  | _, 0 => []
  | i, m + 1 => Event.hve_init (hve_cfg_of (hw_config i)) :: init_events hw_config (i + 1) m

/-- A slot that teardown may read: it holds NULL, or the handle that the call
`hve_init` for its index (call number `base + j`, configuration from
`hw_config[j]`) returned. -/
def slot_ready (w : World) (base : Nat) (hw_config : Nat → nhve_hw_config) (j : Nat)
    (c : Slot) : Prop :=
  c = Slot.val none ∨
    ∃ hd, c = Slot.val (some hd) ∧ w.hve_init (base + j) (hve_cfg_of (hw_config j)) = some hd

/-- Every cell of the array is one that teardown may read. -/
def slots_ready (w : World) (base : Nat) (hw_config : Nat → nhve_hw_config)
    (arr : List Slot) : Prop :=
  ∀ j (hj : j < arr.length), slot_ready w base hw_config j arr[j]

/-! ## Sample data -/

/-- A session with one encoder and a network streamer. -/
def demo_session : nhve := ⟨some ⟨900⟩, some [Slot.val (some ⟨1⟩)], 1⟩

/-- A frame with identifier 7 and two planes. -/
def demo_frame : nhve_frame := ⟨7, [4096, 8192], [1280, 640]⟩

/-- A world where everything succeeds; the encoder yields two packets, then
NULL without failure. -/
def relay_world : World where
  malloc := fun _ => true
  mlsp_init_client := fun _ _ => some ⟨900⟩
  hve_init := fun k _ => some ⟨k + 1⟩
  hve_send_frame := fun _ _ _ => HVE_OK
  hve_receive_packet := fun k _ =>
    match k with
    | 0 => (some ⟨100, 10⟩, 0)
    | 1 => (some ⟨200, 20⟩, 0)
    | _ => (none, 0)
  mlsp_send := fun _ _ _ => MLSP_OK

/-- As `relay_world`, but the second network send fails. -/
def lossy_world : World :=
  { relay_world with mlsp_send := fun k _ _ => if k = 1 then -1 else MLSP_OK }

/-- As `relay_world`, but the encoder yields one packet and then NULL with the
failure flag set. -/
def broken_encoder_world : World :=
  { relay_world with
    hve_receive_packet := fun k _ =>
      match k with
      | 0 => (some ⟨100, 10⟩, 0)
      | _ => (none, -1) }

/-- As `relay_world`, but the hardware refuses the frame. -/
def refusing_world : World :=
  { relay_world with hve_send_frame := fun _ _ _ => -1 }

/-- Network configuration of the samples. -/
def demo_net_config : nhve_net_config := ⟨2130706433, 5000⟩

/-- Hardware configurations of the samples: 1280x720 at 30 frames per second,
the device differing from slot to slot. -/
def demo_hw_config : Nat → nhve_hw_config :=
  fun i => ⟨1280, 720, 30, 64 + i, 0, 0, 0, 0, 0⟩

/-- As `relay_world`, but the second call of `hve_init` fails. -/
def failing_slot_world : World :=
  { relay_world with hve_init := fun k _ => if k = 1 then none else some ⟨k + 1⟩ }

/-- The session handed to teardown when `nhve_multi_init` is called for three
encoders in `failing_slot_world`. -/
def half_built_session : nhve :=
  ⟨some ⟨900⟩, some [Slot.val (some ⟨1⟩), Slot.val none, Slot.val none], 3⟩

/-- Hardware configurations whose nine fields all differ: 1920x1080 at 60
frames per second, the device differing from slot to slot. -/
def varied_hw_config : Nat → nhve_hw_config :=
  fun i =>
    { width := 1920, height := 1080, framerate := 60, device := 64 + i, encoder := 11,
      pixel_format := 12, profile := 3, max_b_frames := 2, bit_rate := 8000000 }

/-- A world whose collaborators look at the configuration they are given: the
network client is created only for address 2130706433, port 5000 and timeout 0,
and the k-th encoder only for the very fields of `varied_hw_config k`, each in
its own place. -/
def config_checking_world : World :=
  { relay_world with
    mlsp_init_client := fun _ cfg =>
      if cfg = { ip := 2130706433, port := 5000, timeout_ms := 0 } then some ⟨900⟩ else none
    hve_init := fun k cfg =>
      if cfg =
          { width := 1920, height := 1080, framerate := 60, device := 64 + k, encoder := 11,
            pixel_format := 12, profile := 3, max_b_frames := 2, bit_rate := 8000000 } then
        some ⟨k + 1⟩
      else none }

/-! ## Lemmas on the drain loop -/

/-- While the encoder yields the packets of `pkts` and every send succeeds, the
loop relays them in order and goes on from the state reached, with the
iterations used taken off the bound. -/
theorem drain_relays (w : World) (n : nhve) (h : Option hve) (f : nhve_frame)
    (hslot : read_slot n 0 = some h) :
    ∀ (pkts : List AVPacket) (s : State) (fuel : Nat),
      (∀ i (hi : i < pkts.length),
        (w.hve_receive_packet (s.receives + i) h).1 = some pkts[i]) →
      (∀ i (hi : i < pkts.length),
        w.mlsp_send (s.sends + i) n.network_streamer
          ⟨f.framenumber, pkts[i].data, pkts[i].size⟩ = MLSP_OK) →
      drain w n (some f) (pkts.length + fuel) s =
        drain w n (some f) fuel
          { s with
            receives := s.receives + pkts.length
            sends := s.sends + pkts.length
            trace := s.trace ++ relay_events h n.network_streamer f.framenumber pkts } := by
  intro pkts
  induction pkts with
  | nil =>
    intro s fuel _ _
    simp [relay_events]
  | cons p ps ih =>
    intro s fuel hrecv hsend
    have h0 := hrecv 0 (by simp)
    have t0 := hsend 0 (by simp)
    simp only [Nat.add_zero, List.getElem_cons_zero] at h0 t0
    have hrecv1 : ∀ i (hi : i < ps.length),
        (w.hve_receive_packet (s.receives + 1 + i) h).1 = some ps[i] := by
      intro i hi
      have := hrecv (i + 1) (by simpa using hi)
      simpa [Nat.add_assoc, Nat.add_comm 1 i] using this
    have hsend1 : ∀ i (hi : i < ps.length),
        w.mlsp_send (s.sends + 1 + i) n.network_streamer
          ⟨f.framenumber, ps[i].data, ps[i].size⟩ = MLSP_OK := by
      intro i hi
      have := hsend (i + 1) (by simpa using hi)
      simpa [Nat.add_assoc, Nat.add_comm 1 i] using this
    have hlen : (p :: ps).length + fuel = (ps.length + fuel) + 1 := by
      simp [Nat.add_assoc, Nat.add_comm, Nat.add_left_comm]
    rw [hlen]
    have step := ih
      { s with
        receives := s.receives + 1
        sends := s.sends + 1
        trace := s.trace ++ [Event.hve_receive_packet h] ++
          [Event.mlsp_send n.network_streamer ⟨f.framenumber, p.data, p.size⟩] }
      fuel hrecv1 hsend1
    simp only [drain, hslot, hve_receive_packet, h0, mlsp_send, t0, ne_eq, not_true_eq_false,
      if_false]
    rw [step]
    simp [relay_events, Nat.add_assoc, Nat.add_comm 1 ps.length]

/-- The records sent among two lists of events, one after the other. -/
theorem net_sends_append (xs ys : List Event) :
    net_sends (xs ++ ys) = net_sends xs ++ net_sends ys := by
  induction xs with
  | nil => rfl
  | cons e es ih => cases e <;> simp [net_sends, ih]

/-- The records sent while relaying packets: one per packet, in order. -/
theorem net_sends_relay_events (h : Option hve) (m : Option mlsp) (fn : Nat)
    (pkts : List AVPacket) :
    net_sends (relay_events h m fn pkts) = pkts.map (fun p => ⟨fn, p.data, p.size⟩) := by
  induction pkts with
  | nil => rfl
  | cons p ps ih => simp [relay_events, net_sends, ih]

/-! ## nhve_send_frame -/

/-- C1: for a session whose slot 0 holds `h` and a non-null frame `f`, when the
hardware submit succeeds, the encoder then yields the packets `pkts` (any
number, none included) followed by NULL with the failure flag clear, and every
network send succeeds, `nhve_send_frame` returns `NHVE_OK`; its calls are the
submit, then for each packet in the order yielded a receive and the send of
`{f.framenumber, data, size}` of that packet, then the last receive: exactly
`pkts.length` sends.  Any iteration bound above `pkts.length` gives the result. -/
theorem send_frame_relays_all_packets (w : World) (s : State) (n : nhve) (h : Option hve)
    (f : nhve_frame) (pkts : List AVPacket) (fuel : Nat)
    (hslot : read_slot n 0 = some h)
    (hsubmit : w.hve_send_frame s.submits h (some ⟨f.data, f.linesize⟩) = HVE_OK)
    (hyield : ∀ i (hi : i < pkts.length),
      (w.hve_receive_packet (s.receives + i) h).1 = some pkts[i])
    (hnull : w.hve_receive_packet (s.receives + pkts.length) h = (none, HVE_OK))
    (hsend : ∀ i (hi : i < pkts.length),
      w.mlsp_send (s.sends + i) n.network_streamer
        ⟨f.framenumber, pkts[i].data, pkts[i].size⟩ = MLSP_OK)
    (hfuel : pkts.length < fuel) :
    nhve_send_frame w s n (some f) fuel =
        (Result.ret NHVE_OK,
          { s with
            submits := s.submits + 1
            receives := s.receives + pkts.length + 1
            sends := s.sends + pkts.length
            trace := s.trace ++ [Event.hve_send_frame h (some ⟨f.data, f.linesize⟩)] ++
              relay_events h n.network_streamer f.framenumber pkts ++
              [Event.hve_receive_packet h] }) ∧
      net_sends (nhve_send_frame w s n (some f) fuel).2.trace =
        net_sends s.trace ++ pkts.map (fun p => ⟨f.framenumber, p.data, p.size⟩) := by
  obtain ⟨d, rfl⟩ : ∃ d, fuel = pkts.length + (d + 1) := ⟨fuel - pkts.length - 1, by omega⟩
  have hrun : nhve_send_frame w s n (some f) (pkts.length + (d + 1)) =
      (Result.ret NHVE_OK,
        { s with
          submits := s.submits + 1
          receives := s.receives + pkts.length + 1
          sends := s.sends + pkts.length
          trace := s.trace ++ [Event.hve_send_frame h (some ⟨f.data, f.linesize⟩)] ++
            relay_events h n.network_streamer f.framenumber pkts ++
            [Event.hve_receive_packet h] }) := by
    have hd := drain_relays w n h f hslot pkts
      { s with
        submits := s.submits + 1
        trace := s.trace ++ [Event.hve_send_frame h (some ⟨f.data, f.linesize⟩)] }
      (d + 1) hyield hsend
    simp only [nhve_send_frame, hslot, hve_send_frame, Option.map_some', hsubmit, ne_eq,
      not_true_eq_false, if_false]
    rw [hd]
    simp [drain, hslot, hve_receive_packet, hnull]
  refine ⟨hrun, ?_⟩
  rw [hrun]
  simp [net_sends_append, net_sends_relay_events, net_sends]

/-- Relaying a list of packets and then one more. -/
theorem relay_events_append (h : Option hve) (m : Option mlsp) (fn : Nat)
    (ps qs : List AVPacket) :
    relay_events h m fn (ps ++ qs) = relay_events h m fn ps ++ relay_events h m fn qs := by
  induction ps with
  | nil => rfl
  | cons p ps ih => simp [relay_events, ih]

/-- C4: for a session whose slot 0 holds `h` and a non-null frame `f`, when the
hardware submit succeeds, the encoder would yield the packets
`sent ++ p :: rest` (K of them), the sends of the packets of `sent` succeed and
the send of `p` (the j-th packet, j = `sent.length + 1`) fails,
`nhve_send_frame` returns `NHVE_ERROR` after exactly j receives and j sends:
the packets of `rest` are neither received nor sent.  Any iteration bound of
at least j gives the result. -/
theorem send_frame_stops_at_failed_send (w : World) (s : State) (n : nhve) (h : Option hve)
    (f : nhve_frame) (sent : List AVPacket) (p : AVPacket) (rest : List AVPacket) (fuel : Nat)
    (hslot : read_slot n 0 = some h)
    (hsubmit : w.hve_send_frame s.submits h (some ⟨f.data, f.linesize⟩) = HVE_OK)
    (hyield : ∀ i (hi : i < (sent ++ p :: rest).length),
      (w.hve_receive_packet (s.receives + i) h).1 = some (sent ++ p :: rest)[i])
    (hsend : ∀ i (hi : i < sent.length),
      w.mlsp_send (s.sends + i) n.network_streamer
        ⟨f.framenumber, sent[i].data, sent[i].size⟩ = MLSP_OK)
    (hfail : w.mlsp_send (s.sends + sent.length) n.network_streamer
        ⟨f.framenumber, p.data, p.size⟩ ≠ MLSP_OK)
    (hfuel : sent.length < fuel) :
    nhve_send_frame w s n (some f) fuel =
        (Result.ret NHVE_ERROR,
          { s with
            submits := s.submits + 1
            receives := s.receives + (sent.length + 1)
            sends := s.sends + (sent.length + 1)
            trace := s.trace ++ [Event.hve_send_frame h (some ⟨f.data, f.linesize⟩)] ++
              relay_events h n.network_streamer f.framenumber (sent ++ [p]) ++
              [Event.fprintf Diag.net_send_failed] }) ∧
      net_sends (nhve_send_frame w s n (some f) fuel).2.trace =
        net_sends s.trace ++ (sent ++ [p]).map (fun q => ⟨f.framenumber, q.data, q.size⟩) := by
  obtain ⟨d, rfl⟩ : ∃ d, fuel = sent.length + (d + 1) := ⟨fuel - sent.length - 1, by omega⟩
  have hyield1 : ∀ i (hi : i < sent.length),
      (w.hve_receive_packet (s.receives + i) h).1 = some sent[i] := by
    intro i hi
    have := hyield i (by simp; omega)
    simpa [List.getElem_append_left hi] using this
  have hp : (w.hve_receive_packet (s.receives + sent.length) h).1 = some p := by
    have := hyield sent.length (by simp)
    simpa [List.getElem_append_right (Nat.le_refl sent.length)] using this
  have hrun : nhve_send_frame w s n (some f) (sent.length + (d + 1)) =
      (Result.ret NHVE_ERROR,
        { s with
          submits := s.submits + 1
          receives := s.receives + (sent.length + 1)
          sends := s.sends + (sent.length + 1)
          trace := s.trace ++ [Event.hve_send_frame h (some ⟨f.data, f.linesize⟩)] ++
            relay_events h n.network_streamer f.framenumber (sent ++ [p]) ++
            [Event.fprintf Diag.net_send_failed] }) := by
    have hd := drain_relays w n h f hslot sent
      { s with
        submits := s.submits + 1
        trace := s.trace ++ [Event.hve_send_frame h (some ⟨f.data, f.linesize⟩)] }
      (d + 1) hyield1 hsend
    simp only [nhve_send_frame, hslot, hve_send_frame, Option.map_some', hsubmit, ne_eq,
      not_true_eq_false, if_false]
    rw [hd]
    simp [drain, hslot, hve_receive_packet, hp, mlsp_send, hfail, State.emit,
      relay_events_append, relay_events, Nat.add_assoc]
  refine ⟨hrun, ?_⟩
  rw [hrun]
  simp [net_sends_append, net_sends_relay_events, net_sends]

/-- C5: for a session whose slot 0 holds `h` and a non-null frame `f`, when the
hardware submit succeeds, the encoder yields the packets `pkts` (m of them,
m >= 0) whose sends all succeed and then NULL with a non-zero failure flag,
`nhve_send_frame` returns `NHVE_ERROR`; it has sent exactly the m records of
those packets and nothing once the failure is reported.  Any iteration bound
above m gives the result. -/
theorem send_frame_reports_encode_failure (w : World) (s : State) (n : nhve) (h : Option hve)
    (f : nhve_frame) (pkts : List AVPacket) (flag : Int) (fuel : Nat)
    (hslot : read_slot n 0 = some h)
    (hsubmit : w.hve_send_frame s.submits h (some ⟨f.data, f.linesize⟩) = HVE_OK)
    (hyield : ∀ i (hi : i < pkts.length),
      (w.hve_receive_packet (s.receives + i) h).1 = some pkts[i])
    (hnull : w.hve_receive_packet (s.receives + pkts.length) h = (none, flag))
    (hflag : flag ≠ 0)
    (hsend : ∀ i (hi : i < pkts.length),
      w.mlsp_send (s.sends + i) n.network_streamer
        ⟨f.framenumber, pkts[i].data, pkts[i].size⟩ = MLSP_OK)
    (hfuel : pkts.length < fuel) :
    nhve_send_frame w s n (some f) fuel =
        (Result.ret NHVE_ERROR,
          { s with
            submits := s.submits + 1
            receives := s.receives + pkts.length + 1
            sends := s.sends + pkts.length
            trace := s.trace ++ [Event.hve_send_frame h (some ⟨f.data, f.linesize⟩)] ++
              relay_events h n.network_streamer f.framenumber pkts ++
              [Event.hve_receive_packet h, Event.fprintf Diag.encode_failed] }) ∧
      net_sends (nhve_send_frame w s n (some f) fuel).2.trace =
        net_sends s.trace ++ pkts.map (fun p => ⟨f.framenumber, p.data, p.size⟩) := by
  obtain ⟨d, rfl⟩ : ∃ d, fuel = pkts.length + (d + 1) := ⟨fuel - pkts.length - 1, by omega⟩
  have hrun : nhve_send_frame w s n (some f) (pkts.length + (d + 1)) =
      (Result.ret NHVE_ERROR,
        { s with
          submits := s.submits + 1
          receives := s.receives + pkts.length + 1
          sends := s.sends + pkts.length
          trace := s.trace ++ [Event.hve_send_frame h (some ⟨f.data, f.linesize⟩)] ++
            relay_events h n.network_streamer f.framenumber pkts ++
            [Event.hve_receive_packet h, Event.fprintf Diag.encode_failed] }) := by
    have hd := drain_relays w n h f hslot pkts
      { s with
        submits := s.submits + 1
        trace := s.trace ++ [Event.hve_send_frame h (some ⟨f.data, f.linesize⟩)] }
      (d + 1) hyield hsend
    simp only [nhve_send_frame, hslot, hve_send_frame, Option.map_some', hsubmit, ne_eq,
      not_true_eq_false, if_false]
    rw [hd]
    have hflag1 : ¬ flag = HVE_OK := hflag
    simp [drain, hslot, hve_receive_packet, hnull, hflag1, State.emit]
  refine ⟨hrun, ?_⟩
  rw [hrun]
  simp [net_sends_append, net_sends_relay_events, net_sends]

/-- C6: for a session whose slot 0 holds `h` and any frame argument (a frame or
NULL), when the hardware submit fails, `nhve_send_frame` returns `NHVE_ERROR`
after that one submit call (and the diagnostic): the numbers of receive calls
and of network sends are unchanged.  No iteration bound is needed. -/
theorem send_frame_submit_failure (w : World) (s : State) (n : nhve) (h : Option hve)
    (frame : Option nhve_frame) (fuel : Nat)
    (hslot : read_slot n 0 = some h)
    (hsubmit : w.hve_send_frame s.submits h (frame.map (fun f => ⟨f.data, f.linesize⟩)) ≠
      HVE_OK) :
    nhve_send_frame w s n frame fuel =
      (Result.ret NHVE_ERROR,
        { s with
          submits := s.submits + 1
          trace := s.trace ++
            [Event.hve_send_frame h (frame.map (fun f => ⟨f.data, f.linesize⟩)),
              Event.fprintf Diag.hw_send_failed] }) := by
  simp [nhve_send_frame, hslot, hve_send_frame, hsubmit, State.emit]

/-! ## nhve_close and nhve_multi_init -/

/-- The loop of `nhve_close` over slots that can be read closes each of them
once, in increasing index order. -/
theorem close_encoders_closes (n : nhve) :
    ∀ (vs : List (Option hve)) (i : Nat) (s : State),
      (∀ j (hj : j < vs.length), read_slot n (i + j) = some vs[j]) →
      close_encoders n vs.length i s =
        (Result.ret (), { s with trace := s.trace ++ vs.map Event.hve_close }) := by
  intro vs
  induction vs with
  | nil => intro i s _; simp [close_encoders]
  | cons v vs ih =>
    intro i s hread
    have h0 := hread 0 (by simp)
    simp only [Nat.add_zero, List.getElem_cons_zero] at h0
    have hrest : ∀ j (hj : j < vs.length), read_slot n (i + 1 + j) = some vs[j] := by
      intro j hj
      have := hread (j + 1) (by simpa using hj)
      simpa [Nat.add_assoc, Nat.add_comm 1 j] using this
    simp [close_encoders, h0, ih (i + 1) _ hrest, State.emit]

/-- The first loop of `nhve_multi_init` writes NULL into every cell. -/
theorem null_slots_fill :
    ∀ (k : Nat) (pre : List Slot) (x : Slot),
      null_slots k pre.length (pre ++ List.replicate k x) =
        pre ++ List.replicate k (Slot.val none) := by
  intro k
  induction k with
  | zero => intro pre x; simp [null_slots]
  | succ k ih =>
    intro pre x
    have := ih (pre ++ [Slot.val none]) x
    simp only [List.length_append, List.length_singleton, List.append_assoc,
      List.singleton_append] at this
    simp [null_slots, List.replicate_succ, this]

/-- While `hve_init` succeeds, the second loop of `nhve_multi_init` stores the
handles in consecutive slots and goes on with the slots left. -/
theorem init_encoders_succeeds (w : World) (hw_config : Nat → nhve_hw_config) (k : Nat) :
    ∀ (hs : List hve) (n : nhve) (pre : List Slot) (s : State),
      n.hardware_encoder = some (pre ++ List.replicate (hs.length + k) (Slot.val none)) →
      (∀ j (hj : j < hs.length),
        w.hve_init (s.hw_inits + j) (hve_cfg_of (hw_config (pre.length + j))) = some hs[j]) →
      init_encoders w hw_config (hs.length + k) pre.length n s =
        init_encoders w hw_config k (pre.length + hs.length)
          { n with
            hardware_encoder :=
              some (pre ++ hs.map (fun h => Slot.val (some h)) ++
                List.replicate k (Slot.val none)) }
          { s with
            hw_inits := s.hw_inits + hs.length
            trace := s.trace ++ init_events hw_config pre.length hs.length } := by
  intro hs
  induction hs with
  | nil =>
    intro n pre s harr _
    simp only [List.length_nil, Nat.zero_add] at harr
    simp [init_events, ← harr]
  | cons hd tl ih =>
    intro n pre s harr hok
    have h0 := hok 0 (by simp)
    simp only [Nat.add_zero, List.getElem_cons_zero] at h0
    have hrest : ∀ j (hj : j < tl.length),
        w.hve_init (s.hw_inits + 1 + j)
          (hve_cfg_of (hw_config ((pre ++ [Slot.val (some hd)]).length + j))) = some tl[j] := by
      intro j hj
      have := hok (j + 1) (by simpa using hj)
      simpa [Nat.add_assoc, Nat.add_comm 1 j] using this
    have hlen : (hd :: tl).length + k = (tl.length + k) + 1 := by
      simp [Nat.add_assoc, Nat.add_comm, Nat.add_left_comm]
    have step := ih
      { n with
        hardware_encoder :=
          some ((pre ++ [Slot.val (some hd)]) ++ List.replicate (tl.length + k) (Slot.val none)) }
      (pre ++ [Slot.val (some hd)])
      { s with
        hw_inits := s.hw_inits + 1
        trace := s.trace ++ [Event.hve_init (hve_cfg_of (hw_config pre.length))] }
      rfl hrest
    rw [hlen] at harr ⊢
    simp only [init_encoders, hve_init, h0, harr, Option.map_some', List.replicate_succ,
      List.set_append_right _ _ (Nat.le_refl pre.length), Nat.sub_self, List.set_cons_zero]
    simp only [List.length_append, List.length_singleton, List.append_assoc,
      List.singleton_append] at step
    rw [step]
    simp [init_events, Nat.add_assoc, Nat.add_comm 1 tl.length]

/-- Reading a slot of an array all of whose cells were written. -/
theorem read_slot_written (m : Option mlsp) (vs : List (Option hve)) (size : Int) (i : Nat) :
    read_slot ⟨m, some (vs.map Slot.val), size⟩ i = vs[i]? := by
  simp only [read_slot, List.getElem?_map]
  cases vs[i]? <;> rfl

/-- The calls `hve_init` of `m + 1` rounds: those of `m` rounds, then one more. -/
theorem init_events_succ (hw_config : Nat → nhve_hw_config) :
    ∀ (m i : Nat), init_events hw_config i (m + 1) =
      init_events hw_config i m ++ [Event.hve_init (hve_cfg_of (hw_config (i + m)))] := by
  intro m
  induction m with
  | zero => intro i; simp [init_events]
  | succ m ih =>
    intro i
    have := ih (i + 1)
    simp only [init_events, List.cons_append, List.cons.injEq, true_and] at this ⊢
    rw [this]
    simp [Nat.add_assoc, Nat.add_comm 1 m]

/-- What `nhve_close` does on a session all of whose slots below
`hardware_encoders_size` can be read. -/
theorem nhve_close_calls (s : State) (n : nhve) (vs : List (Option hve))
    (hsize : n.hardware_encoders_size = (vs.length : Int))
    (hslots : ∀ i (hi : i < vs.length), read_slot n i = some vs[i]) :
    nhve_close s n =
      (Result.ret (),
        { s with
          trace := s.trace ++ [Event.mlsp_close n.network_streamer] ++
            vs.map Event.hve_close ++
            [Event.free_encoders n.hardware_encoder.isSome, Event.free_nhve] }) := by
  have hloop := close_encoders_closes n vs 0
    (s.emit (Event.mlsp_close n.network_streamer)) (by simpa using hslots)
  simp only [State.emit] at hloop
  simp [nhve_close, hsize, hloop, State.emit]

/-- C8: for a session with N encoder slots (`hardware_encoders_size = N`, slot
`i` holding the handle or NULL `vs[i]`), `nhve_close` makes exactly these calls
in this order: `mlsp_close` on the network streamer, `hve_close` on slot
0, 1, ..., N-1 (once each, a handle or NULL alike), `free` of the array of
encoder handles, `free` of the session. -/
theorem close_effect_sequence (s : State) (n : nhve) (vs : List (Option hve))
    (hsize : n.hardware_encoders_size = (vs.length : Int))
    (hslots : ∀ i (hi : i < vs.length), read_slot n i = some vs[i]) :
    nhve_close s n =
      (Result.ret (),
        { s with
          trace := s.trace ++ [Event.mlsp_close n.network_streamer] ++
            vs.map Event.hve_close ++
            [Event.free_encoders n.hardware_encoder.isSome, Event.free_nhve] }) :=
  nhve_close_calls s n vs hsize hslots

/-- The calls `hve_init` of the second loop, slot by slot. -/
theorem init_events_eq_map (hw_config : Nat → nhve_hw_config) (m : Nat) :
    init_events hw_config 0 m =
      (List.range m).map (fun i => Event.hve_init (hve_cfg_of (hw_config i))) := by
  induction m with
  | zero => rfl
  | succ m ih => simp [init_events_succ, ih, List.range_succ]

/-- C7: when both allocations succeed, `mlsp_init_client`, called with
`{ip, port, 0}` of the network configuration, returns `ns`, and the
N = `hs.length` calls `hve_init` return the handles `hs`, the i-th call being
given the nine fields of `hw_config[i]`, each in the field of the same name,
`nhve_multi_init` returns a non-null session with `hardware_encoders_size = N`,
slot `i` holding the non-null `hs[i]` for every `i < N`, and `network_streamer`
holding `ns`; the calls made are the two `malloc`, the client init and those N
`hve_init`, in index order, with exactly those configurations. -/
theorem multi_init_succeeds (w : World) (s : State) (net_config : nhve_net_config)
    (hw_config : Nat → nhve_hw_config) (hs : List hve) (ns : mlsp)
    (hmem1 : w.malloc s.mallocs = true)
    (hmem2 : w.malloc (s.mallocs + 1) = true)
    (hnet : w.mlsp_init_client s.net_inits
      { ip := net_config.ip, port := net_config.port, timeout_ms := 0 } = some ns)
    (hok : ∀ i (hi : i < hs.length),
      w.hve_init (s.hw_inits + i)
        { width := (hw_config i).width
          height := (hw_config i).height
          framerate := (hw_config i).framerate
          device := (hw_config i).device
          encoder := (hw_config i).encoder
          pixel_format := (hw_config i).pixel_format
          profile := (hw_config i).profile
          max_b_frames := (hw_config i).max_b_frames
          bit_rate := (hw_config i).bit_rate } = some hs[i]) :
    nhve_multi_init w s net_config hw_config (hs.length : Int) =
        (Result.ret (some ⟨some ns, some (hs.map (fun h => Slot.val (some h))), hs.length⟩),
          { s with
            mallocs := s.mallocs + 2
            net_inits := s.net_inits + 1
            hw_inits := s.hw_inits + hs.length
            trace := s.trace ++
              [Event.malloc_nhve, Event.malloc_encoders hs.length,
                Event.mlsp_init_client
                  { ip := net_config.ip, port := net_config.port, timeout_ms := 0 }] ++
              (List.range hs.length).map (fun i =>
                Event.hve_init
                  { width := (hw_config i).width
                    height := (hw_config i).height
                    framerate := (hw_config i).framerate
                    device := (hw_config i).device
                    encoder := (hw_config i).encoder
                    pixel_format := (hw_config i).pixel_format
                    profile := (hw_config i).profile
                    max_b_frames := (hw_config i).max_b_frames
                    bit_rate := (hw_config i).bit_rate }) }) ∧
      ∀ i (hi : i < hs.length),
        read_slot ⟨some ns, some (hs.map (fun h => Slot.val (some h))), hs.length⟩ i =
          some (some hs[i]) := by
  have hcfg : ∀ c : nhve_hw_config,
      ({ width := c.width, height := c.height, framerate := c.framerate, device := c.device,
          encoder := c.encoder, pixel_format := c.pixel_format, profile := c.profile,
          max_b_frames := c.max_b_frames, bit_rate := c.bit_rate } : hve_config) =
        hve_cfg_of c := fun _ => rfl
  simp only [hcfg] at hok ⊢
  constructor
  · have hfill := null_slots_fill hs.length [] Slot.uninit
    simp only [List.length_nil, List.nil_append] at hfill
    have hloop := init_encoders_succeeds w hw_config 0 hs
      ⟨some ns, some (List.replicate hs.length (Slot.val none)), hs.length⟩ []
      { s with
        mallocs := s.mallocs + 2
        net_inits := s.net_inits + 1
        trace := s.trace ++
          [Event.malloc_nhve, Event.malloc_encoders hs.length,
            Event.mlsp_init_client ⟨net_config.ip, net_config.port, 0⟩] }
      (by simp) (by simpa using hok)
    simp only [Nat.add_zero, List.length_nil, List.nil_append, Nat.zero_add] at hloop
    simp [nhve_multi_init, nhve_multi_init_body, malloc_nhve, malloc_encoders, mlsp_init_client,
      hmem1, hmem2, hnet, zero_nhve, hfill, hloop, init_encoders, init_events_eq_map]
  · intro i hi
    have := read_slot_written (some ns) (hs.map some) hs.length i
    simpa [List.map_map, Function.comp_def, hi] using this

/-- C2: for every N >= 1 and every k < N, when both allocations and the
network-client init succeed (`ns`), `hve_init` returns the handles `hs` for
slots 0..k-1 and NULL for slot k, `nhve_multi_init` returns NULL; it has called
`hve_init` k+1 times only (never for slots k+1..N-1), and its teardown is
`mlsp_close` on `ns`, `hve_close` on each handle of `hs` once, in slot order,
`hve_close` on NULL for the N-k other slots, and the two `free`. -/
theorem multi_init_unwinds_on_encoder_failure (w : World) (s : State)
    (net_config : nhve_net_config) (hw_config : Nat → nhve_hw_config) (N k : Nat)
    (hs : List hve) (ns : mlsp)
    (hk : k < N) (hlen : hs.length = k)
    (hmem1 : w.malloc s.mallocs = true)
    (hmem2 : w.malloc (s.mallocs + 1) = true)
    (hnet : w.mlsp_init_client s.net_inits ⟨net_config.ip, net_config.port, 0⟩ = some ns)
    (hok : ∀ i (hi : i < hs.length),
      w.hve_init (s.hw_inits + i) (hve_cfg_of (hw_config i)) = some hs[i])
    (hfail : w.hve_init (s.hw_inits + k) (hve_cfg_of (hw_config k)) = none) :
    nhve_multi_init w s net_config hw_config (N : Int) =
      (Result.ret none,
        { s with
          mallocs := s.mallocs + 2
          net_inits := s.net_inits + 1
          hw_inits := s.hw_inits + (k + 1)
          trace := s.trace ++
            [Event.malloc_nhve, Event.malloc_encoders N,
              Event.mlsp_init_client ⟨net_config.ip, net_config.port, 0⟩] ++
            init_events hw_config 0 (k + 1) ++
            [Event.fprintf (Diag.encoder_failed k), Event.mlsp_close (some ns)] ++
            hs.map (fun h => Event.hve_close (some h)) ++
            List.replicate (N - k) (Event.hve_close none) ++
            [Event.free_encoders true, Event.free_nhve] }) := by
  subst hlen
  obtain ⟨m, rfl⟩ : ∃ m, N = hs.length + (m + 1) := ⟨N - hs.length - 1, by omega⟩
  have hfill := null_slots_fill (hs.length + (m + 1)) [] Slot.uninit
  simp only [List.length_nil, List.nil_append] at hfill
  have hloop := init_encoders_succeeds w hw_config (m + 1) hs
    ⟨some ns, some (List.replicate (hs.length + (m + 1)) (Slot.val none)),
      ((hs.length + (m + 1) : Nat) : Int)⟩ []
    { s with
      mallocs := s.mallocs + 2
      net_inits := s.net_inits + 1
      trace := s.trace ++
        [Event.malloc_nhve, Event.malloc_encoders ((hs.length + (m + 1) : Nat) : Int),
          Event.mlsp_init_client ⟨net_config.ip, net_config.port, 0⟩] }
    (by simp) (by simpa using hok)
  simp only [List.length_nil, List.nil_append, Nat.zero_add] at hloop
  have hset : (hs.map (fun h => Slot.val (some h)) ++
        List.replicate (m + 1) (Slot.val none)).set hs.length (Slot.val none) =
      (hs.map some ++ List.replicate (m + 1) none).map Slot.val := by
    rw [List.set_append_right _ _ (by simp)]
    simp [List.replicate_succ, Function.comp_def]
  have hclose := nhve_close_calls
    { s with
      mallocs := s.mallocs + 2
      net_inits := s.net_inits + 1
      hw_inits := s.hw_inits + hs.length + 1
      trace := s.trace ++
        [Event.malloc_nhve, Event.malloc_encoders ((hs.length + (m + 1) : Nat) : Int),
          Event.mlsp_init_client ⟨net_config.ip, net_config.port, 0⟩] ++
        init_events hw_config 0 hs.length ++
        [Event.hve_init (hve_cfg_of (hw_config hs.length)),
          Event.fprintf (Diag.encoder_failed hs.length)] }
    ⟨some ns, some ((hs.map some ++ List.replicate (m + 1) none).map Slot.val),
      ((hs.length + (m + 1) : Nat) : Int)⟩
    (hs.map some ++ List.replicate (m + 1) none)
    (by simp)
    (by
      intro i hi
      rw [read_slot_written]
      exact List.getElem?_eq_getElem hi)
  have hZn : ((hs.length + (m + 1) : Nat) : Int).toNat = hs.length + (m + 1) :=
    Int.toNat_ofNat _
  generalize ((hs.length + (m + 1) : Nat) : Int) = Z at hZn hloop hclose ⊢
  have hbody : nhve_multi_init_body w s net_config hw_config Z =
      (InitExit.abort
        ⟨some ns, some ((hs.map some ++ List.replicate (m + 1) none).map Slot.val), Z⟩,
        { s with
          mallocs := s.mallocs + 2
          net_inits := s.net_inits + 1
          hw_inits := s.hw_inits + hs.length + 1
          trace := s.trace ++
            [Event.malloc_nhve, Event.malloc_encoders Z,
              Event.mlsp_init_client ⟨net_config.ip, net_config.port, 0⟩] ++
            init_events hw_config 0 hs.length ++
            [Event.hve_init (hve_cfg_of (hw_config hs.length)),
              Event.fprintf (Diag.encoder_failed hs.length)] }) := by
    simp only [nhve_multi_init_body, malloc_nhve, malloc_encoders, mlsp_init_client, hmem1,
      hmem2, hnet, zero_nhve, hZn, Option.map_some', hfill]
    simp only [Bool.true_eq_false, if_false, List.append_assoc, List.singleton_append,
      List.cons_append, List.nil_append] at hloop ⊢
    rw [hloop]
    simp [init_encoders, hve_init, hfail, hset, State.emit]
  simp only [nhve_multi_init, hbody, nhve_close_and_return_null, hclose]
  simp [init_events_succ, Nat.add_assoc, Function.comp_def]

/-- Writing a ready value into a cell keeps every cell ready. -/
theorem slots_ready_set (w : World) (base : Nat) (hw_config : Nat → nhve_hw_config)
    (arr : List Slot) (i : Nat) (c : Slot)
    (harr : slots_ready w base hw_config arr) (hc : slot_ready w base hw_config i c) :
    slots_ready w base hw_config (arr.set i c) := by
  intro j hj
  have hj1 : j < arr.length := by simpa using hj
  rw [List.getElem_set]
  split
  · next hij => subst hij; exact hc
  · exact harr j hj1

/-- When the second loop of `nhve_multi_init` gives up, every cell of the array
is ready and the other fields of the session are as before the loop. -/
theorem init_encoders_abort_ready (w : World) (base : Nat) (hw_config : Nat → nhve_hw_config) :
    ∀ (k i : Nat) (n : nhve) (s : State) (arr : List Slot),
      n.hardware_encoder = some arr → s.hw_inits = base + i →
      slots_ready w base hw_config arr →
      ∀ (n1 : nhve) (s1 : State),
        init_encoders w hw_config k i n s = (InitExit.abort n1, s1) →
        ∃ arr1, n1.hardware_encoder = some arr1 ∧ arr1.length = arr.length ∧
          slots_ready w base hw_config arr1 ∧
          n1.hardware_encoders_size = n.hardware_encoders_size := by
  intro k
  induction k with
  | zero =>
    intro i n s arr _ _ _ n1 s1 hrun
    simp [init_encoders] at hrun
  | succ k ih =>
    intro i n s arr harr hcount hready n1 s1 hrun
    simp only [init_encoders, hve_init, harr, Option.map_some', hcount] at hrun
    cases hres : w.hve_init (base + i) (hve_cfg_of (hw_config i)) with
    | none =>
      simp only [hres, Prod.mk.injEq, InitExit.abort.injEq] at hrun
      refine ⟨arr.set i (Slot.val none), ?_, by simp, ?_, ?_⟩
      · rw [← hrun.1]
      · exact slots_ready_set w base hw_config arr i _ hready (Or.inl rfl)
      · rw [← hrun.1]
    | some hd =>
      simp only [hres] at hrun
      have hstep := ih (i + 1)
        { n with hardware_encoder := some (arr.set i (Slot.val (some hd))) }
        { s with
          hw_inits := base + i + 1
          trace := s.trace ++ [Event.hve_init (hve_cfg_of (hw_config i))] }
        (arr.set i (Slot.val (some hd))) rfl (by simp [Nat.add_assoc])
        (slots_ready_set w base hw_config arr i _ hready (Or.inr ⟨hd, rfl, hres⟩))
        n1 s1 hrun
      obtain ⟨arr1, h1, h2, h3, h4⟩ := hstep
      exact ⟨arr1, h1, by simpa using h2, h3, h4⟩

/-- The loop of `nhve_close` ends normally when every slot it reads can be read. -/
theorem close_encoders_returns (n : nhve) :
    ∀ (k i : Nat) (s : State),
      (∀ j, j < k → ∃ v, read_slot n (i + j) = some v) →
      ∃ s1, close_encoders n k i s = (Result.ret (), s1) := by
  intro k
  induction k with
  | zero => intro i s _; exact ⟨s, rfl⟩
  | succ k ih =>
    intro i s hread
    obtain ⟨v, hv⟩ := hread 0 (by omega)
    simp only [Nat.add_zero] at hv
    have hrest : ∀ j, j < k → ∃ v, read_slot n (i + 1 + j) = some v := by
      intro j hj
      have := hread (j + 1) (by omega)
      simpa [Nat.add_assoc, Nat.add_comm 1 j] using this
    obtain ⟨s1, hs1⟩ := ih (i + 1) (s.emit (Event.hve_close v)) hrest
    exact ⟨s1, by simp [close_encoders, hv, hs1]⟩

/-- The function `nhve_close` returns when every slot below
`hardware_encoders_size` can be read. -/
theorem nhve_close_returns (s : State) (n : nhve)
    (hread : ∀ j : Nat, (j : Int) < n.hardware_encoders_size → ∃ v, read_slot n j = some v) :
    (nhve_close s n).1 = Result.ret () := by
  have hloop := close_encoders_returns n n.hardware_encoders_size.toNat 0
    (s.emit (Event.mlsp_close n.network_streamer))
    (by
      intro j hj
      have : (j : Int) < n.hardware_encoders_size := by omega
      simpa using hread j this)
  obtain ⟨s1, hs1⟩ := hloop
  simp [nhve_close, hs1]

/-- C10: whenever `nhve_multi_init` leaves through
`nhve_close_and_return_null(n)` (array allocation failure, network-client-init
failure, failure of any encoder slot), the session `n` handed to teardown is
such that every slot with index below `hardware_encoders_size` holds NULL or
the handle returned by the successful `hve_init` of that slot; after an
allocation or network-client-init failure `hardware_encoders_size` is 0, so no
slot is read; hence `nhve_close` reads no unwritten slot and returns. -/
theorem teardown_reads_only_written_slots (w : World) (s : State)
    (net_config : nhve_net_config) (hw_config : Nat → nhve_hw_config) (hw_size : Int)
    (n : nhve) (s1 : State)
    (habort : nhve_multi_init_body w s net_config hw_config hw_size = (InitExit.abort n, s1)) :
    (∀ i : Nat, (i : Int) < n.hardware_encoders_size →
        read_slot n i = some none ∨
          ∃ hd, read_slot n i = some (some hd) ∧
            w.hve_init (s.hw_inits + i) (hve_cfg_of (hw_config i)) = some hd) ∧
      ((w.malloc (s.mallocs + 1) = false ∨
          w.mlsp_init_client s.net_inits ⟨net_config.ip, net_config.port, 0⟩ = none) →
        n.hardware_encoders_size = 0) ∧
      (nhve_close s1 n).1 = Result.ret () ∧
      nhve_multi_init w s net_config hw_config hw_size = nhve_close_and_return_null s1 n := by
  have hslots : (∀ i : Nat, (i : Int) < n.hardware_encoders_size →
        read_slot n i = some none ∨
          ∃ hd, read_slot n i = some (some hd) ∧
            w.hve_init (s.hw_inits + i) (hve_cfg_of (hw_config i)) = some hd) ∧
      ((w.malloc (s.mallocs + 1) = false ∨
          w.mlsp_init_client s.net_inits ⟨net_config.ip, net_config.port, 0⟩ = none) →
        n.hardware_encoders_size = 0) := by
    have hrun := habort
    simp only [nhve_multi_init_body, malloc_nhve, malloc_encoders, mlsp_init_client,
      zero_nhve] at hrun
    cases hm1 : w.malloc s.mallocs with
    | false => simp [hm1] at hrun
    | true =>
      cases hm2 : w.malloc (s.mallocs + 1) with
      | false =>
        simp only [hm1, hm2, Bool.true_eq_false, if_false, if_true, Prod.mk.injEq,
          InitExit.abort.injEq] at hrun
        obtain ⟨rfl, _⟩ := hrun
        exact ⟨fun i hi => absurd hi (by simp), fun _ => rfl⟩
      | true =>
        cases hnet : w.mlsp_init_client s.net_inits ⟨net_config.ip, net_config.port, 0⟩ with
        | none =>
          simp only [hm1, hm2, hnet, Bool.true_eq_false, if_false, Prod.mk.injEq,
            InitExit.abort.injEq] at hrun
          obtain ⟨rfl, _⟩ := hrun
          exact ⟨fun i hi => absurd hi (by simp), fun _ => rfl⟩
        | some ns =>
          simp only [hm1, hm2, hnet, Bool.true_eq_false, if_false, Option.map_some'] at hrun
          have hfill := null_slots_fill hw_size.toNat [] Slot.uninit
          simp only [List.length_nil, List.nil_append] at hfill
          rw [hfill] at hrun
          have hinv := init_encoders_abort_ready w s.hw_inits hw_config hw_size.toNat 0 _ _
            (List.replicate hw_size.toNat (Slot.val none)) rfl (by simp)
            (by
              intro j hj
              left
              simp)
            n s1 hrun
          obtain ⟨arr1, harr1, hlen1, hready1, hsize1⟩ := hinv
          simp only [List.length_replicate] at hlen1
          simp only at hsize1
          refine ⟨?_, ?_⟩
          · intro i hi
            have hi1 : i < arr1.length := by omega
            have hcell := hready1 i hi1
            have hget : arr1[i]? = some arr1[i] := List.getElem?_eq_getElem hi1
            rcases hcell with hnull | ⟨hd, hval, hcall⟩
            · left
              simp [read_slot, harr1, hget, hnull]
            · right
              exact ⟨hd, by simp [read_slot, harr1, hget, hval], hcall⟩
          · intro hfailed
            rcases hfailed with h | h
            · simp [hm2] at h
            · simp [hnet] at h
  refine ⟨hslots.1, hslots.2, ?_, ?_⟩
  · apply nhve_close_returns
    intro j hj
    rcases hslots.1 j hj with h | ⟨hd, h, _⟩
    · exact ⟨_, h⟩
    · exact ⟨_, h⟩
  · simp [nhve_multi_init, habort]

/-! ## The NULL frame -/

/-- A NULL frame for which the encoder has nothing buffered: NULL is passed to
slot 0 and `NHVE_OK` is returned after one receive, nothing being sent. -/
theorem flush_without_packets (w : World) (s : State) (n : nhve) (h : Option hve) (fuel : Nat)
    (hslot : read_slot n 0 = some h)
    (hsubmit : w.hve_send_frame s.submits h none = HVE_OK)
    (hnull : w.hve_receive_packet s.receives h = (none, HVE_OK)) :
    nhve_send_frame w s n none (fuel + 1) =
      (Result.ret NHVE_OK,
        { s with
          submits := s.submits + 1
          receives := s.receives + 1
          trace := s.trace ++ [Event.hve_send_frame h none, Event.hve_receive_packet h] }) := by
  simp [nhve_send_frame, hslot, hve_send_frame, hsubmit, drain, hve_receive_packet, hnull]

/-- A NULL frame for which the encoder has a packet buffered: after the submit
and one receive the loop evaluates `frame->framenumber` on the NULL frame. -/
theorem flush_with_packet_faults (w : World) (s : State) (n : nhve) (h : Option hve)
    (p : AVPacket) (fuel : Nat)
    (hslot : read_slot n 0 = some h)
    (hsubmit : w.hve_send_frame s.submits h none = HVE_OK)
    (hpkt : (w.hve_receive_packet s.receives h).1 = some p) :
    nhve_send_frame w s n none (fuel + 1) =
      (Result.fault,
        { s with
          submits := s.submits + 1
          receives := s.receives + 1
          trace := s.trace ++ [Event.hve_send_frame h none, Event.hve_receive_packet h] }) := by
  simp [nhve_send_frame, hslot, hve_send_frame, hsubmit, drain, hve_receive_packet, hpkt]

/-- Whatever the world, a call with the NULL frame sends no record: a packet
received makes the loop read `frame->framenumber` through the NULL frame before
`mlsp_send`. -/
theorem null_frame_call_sends_nothing (w : World) (s : State) (n : nhve) :
    ∀ fuel : Nat, net_sends (nhve_send_frame w s n none fuel).2.trace = net_sends s.trace := by
  intro fuel
  cases hslot : read_slot n 0 with
  | none => simp [nhve_send_frame, hslot]
  | some h =>
    by_cases hrc : w.hve_send_frame s.submits h none = HVE_OK
    · cases fuel with
      | zero =>
        simp [nhve_send_frame, hslot, hve_send_frame, hrc, drain, net_sends_append, net_sends]
      | succ fuel =>
        cases hpkt : (w.hve_receive_packet s.receives h).1 with
        | none =>
          simp only [nhve_send_frame, hslot, hve_send_frame, Option.map_none', hrc, ne_eq,
            not_true_eq_false, if_false, drain, hve_receive_packet, hpkt]
          split <;> simp [State.emit, net_sends_append, net_sends]
        | some p =>
          simp [nhve_send_frame, hslot, hve_send_frame, hrc, drain, hve_receive_packet, hpkt,
            net_sends_append, net_sends]
    · simp [nhve_send_frame, hslot, hve_send_frame, hrc, State.emit, net_sends_append,
        net_sends]

/-- C3 at its failing input: the session has one encoder, the frame is NULL,
the submit succeeds, the encoder has two packets buffered (then NULL with the
flag clear) and every send would succeed.  The call passes NULL to slot 0,
receives the first packet and then reads `frame->framenumber` through the NULL
frame: it neither sends the packet nor returns `NHVE_OK`. -/
theorem flush_with_buffered_packets_faults :
    read_slot demo_session 0 = some (some ⟨1⟩) ∧
      relay_world.hve_send_frame 0 (some ⟨1⟩) none = HVE_OK ∧
      relay_world.hve_receive_packet 0 (some ⟨1⟩) = (some ⟨100, 10⟩, HVE_OK) ∧
      relay_world.hve_receive_packet 1 (some ⟨1⟩) = (some ⟨200, 20⟩, HVE_OK) ∧
      relay_world.hve_receive_packet 2 (some ⟨1⟩) = (none, HVE_OK) ∧
      relay_world.mlsp_send 0 (some ⟨900⟩) ⟨0, 100, 10⟩ = MLSP_OK ∧
      nhve_send_frame relay_world State.start demo_session none 3 =
        (Result.fault,
          ⟨0, 0, 0, 1, 1, 0,
            [Event.hve_send_frame (some ⟨1⟩) none, Event.hve_receive_packet (some ⟨1⟩)]⟩) := by
  decide

/-- Instance of C1: two packets are relayed with the identifier 7 of the frame. -/
theorem send_frame_relays_all_packets_witness :
    (nhve_send_frame relay_world State.start demo_session (some demo_frame) 3).1 =
        Result.ret NHVE_OK ∧
      net_sends (nhve_send_frame relay_world State.start demo_session (some demo_frame) 3).2.trace =
        [⟨7, 100, 10⟩, ⟨7, 200, 20⟩] :=
  have h := send_frame_relays_all_packets relay_world State.start demo_session (some ⟨1⟩)
    demo_frame [⟨100, 10⟩, ⟨200, 20⟩] 3 (by rfl) (by rfl) (by decide) (by rfl) (by decide)
    (by decide)
  ⟨congrArg Prod.fst h.1, h.2⟩

/-- Instance of C4: the second of two sends fails; two receives, two sends. -/
theorem send_frame_stops_at_failed_send_witness :
    nhve_send_frame lossy_world State.start demo_session (some demo_frame) 2 =
      (Result.ret NHVE_ERROR,
        ⟨0, 0, 0, 1, 2, 2,
          [Event.hve_send_frame (some ⟨1⟩) (some ⟨[4096, 8192], [1280, 640]⟩),
            Event.hve_receive_packet (some ⟨1⟩), Event.mlsp_send (some ⟨900⟩) ⟨7, 100, 10⟩,
            Event.hve_receive_packet (some ⟨1⟩), Event.mlsp_send (some ⟨900⟩) ⟨7, 200, 20⟩,
            Event.fprintf Diag.net_send_failed]⟩) :=
  (send_frame_stops_at_failed_send lossy_world State.start demo_session (some ⟨1⟩) demo_frame
    [⟨100, 10⟩] ⟨200, 20⟩ [] 2 (by rfl) (by rfl) (by decide) (by decide) (by decide)
    (by decide)).1

/-- Instance of C5: one packet is sent, then the encoder reports a failure. -/
theorem send_frame_reports_encode_failure_witness :
    (nhve_send_frame broken_encoder_world State.start demo_session (some demo_frame) 2).1 =
        Result.ret NHVE_ERROR ∧
      net_sends
          (nhve_send_frame broken_encoder_world State.start demo_session (some demo_frame) 2).2.trace =
        [⟨7, 100, 10⟩] :=
  have h := send_frame_reports_encode_failure broken_encoder_world State.start demo_session
    (some ⟨1⟩) demo_frame [⟨100, 10⟩] (-1) 2 (by rfl) (by rfl) (by decide) (by rfl) (by decide)
    (by decide) (by decide)
  ⟨congrArg Prod.fst h.1, h.2⟩

/-- Instance of C6: the hardware refuses the NULL frame; one submit, no
receive, no send. -/
theorem send_frame_submit_failure_witness :
    nhve_send_frame refusing_world State.start demo_session none 0 =
      (Result.ret NHVE_ERROR,
        ⟨0, 0, 0, 1, 0, 0,
          [Event.hve_send_frame (some ⟨1⟩) none, Event.fprintf Diag.hw_send_failed]⟩) :=
  send_frame_submit_failure refusing_world State.start demo_session (some ⟨1⟩) none 0
    (by rfl) (by decide)

/-- Instance of C8: closing the session left by a failed construction. -/
theorem close_effect_sequence_witness :
    nhve_close State.start half_built_session =
      (Result.ret (),
        ⟨0, 0, 0, 0, 0, 0,
          [Event.mlsp_close (some ⟨900⟩), Event.hve_close (some ⟨1⟩), Event.hve_close none,
            Event.hve_close none, Event.free_encoders true, Event.free_nhve]⟩) :=
  close_effect_sequence State.start half_built_session [some ⟨1⟩, none, none] (by rfl)
    (by decide)

/-- Instance of C7: three encoders are created in a world that refuses any
configuration but the one built field by field from `varied_hw_config`. -/
theorem multi_init_succeeds_witness :
    nhve_multi_init config_checking_world State.start demo_net_config varied_hw_config 3 =
      (Result.ret (some ⟨some ⟨900⟩,
          some [Slot.val (some ⟨1⟩), Slot.val (some ⟨2⟩), Slot.val (some ⟨3⟩)], 3⟩),
        ⟨2, 1, 3, 0, 0, 0,
          [Event.malloc_nhve, Event.malloc_encoders 3,
            Event.mlsp_init_client ⟨2130706433, 5000, 0⟩,
            Event.hve_init ⟨1920, 1080, 60, 64, 11, 12, 3, 2, 8000000⟩,
            Event.hve_init ⟨1920, 1080, 60, 65, 11, 12, 3, 2, 8000000⟩,
            Event.hve_init ⟨1920, 1080, 60, 66, 11, 12, 3, 2, 8000000⟩]⟩) :=
  (multi_init_succeeds config_checking_world State.start demo_net_config varied_hw_config
    [⟨1⟩, ⟨2⟩, ⟨3⟩] ⟨900⟩ (by rfl) (by rfl) (by decide) (by decide)).1

/-- Instance of C2: of three encoders the second fails (N = 3, k = 1). -/
theorem multi_init_unwinds_on_encoder_failure_witness :
    nhve_multi_init failing_slot_world State.start demo_net_config demo_hw_config 3 =
      (Result.ret none,
        ⟨2, 1, 2, 0, 0, 0,
          [Event.malloc_nhve, Event.malloc_encoders 3,
            Event.mlsp_init_client ⟨2130706433, 5000, 0⟩,
            Event.hve_init ⟨1280, 720, 30, 64, 0, 0, 0, 0, 0⟩,
            Event.hve_init ⟨1280, 720, 30, 65, 0, 0, 0, 0, 0⟩,
            Event.fprintf (Diag.encoder_failed 1), Event.mlsp_close (some ⟨900⟩),
            Event.hve_close (some ⟨1⟩), Event.hve_close none, Event.hve_close none,
            Event.free_encoders true, Event.free_nhve]⟩) :=
  multi_init_unwinds_on_encoder_failure failing_slot_world State.start demo_net_config
    demo_hw_config 3 1 [⟨1⟩] ⟨900⟩ (by decide) (by rfl) (by rfl) (by rfl) (by rfl) (by decide)
    (by rfl)

/-- Instance of C10: the session handed to teardown after the second of three
encoders failed; slot 1 holds NULL and `nhve_close` returns. -/
theorem teardown_reads_only_written_slots_witness :
    read_slot half_built_session 1 = some none ∧
      (nhve_close
          (nhve_multi_init_body failing_slot_world State.start demo_net_config demo_hw_config 3).2
          half_built_session).1 = Result.ret () :=
  have h := teardown_reads_only_written_slots failing_slot_world State.start demo_net_config
    demo_hw_config 3 half_built_session
    (nhve_multi_init_body failing_slot_world State.start demo_net_config demo_hw_config 3).2
    (by rfl)
  ⟨by rfl, h.2.2.1⟩

end Nhve
